import Mathlib

/-
Shallow embedding of the time-tracking core of the cosmic-app-template
clock application (src/app.rs).  Durations and timestamps are modelled in
whole milliseconds as naturals (std::time::Duration is a non-negative
amount of time; the app only ever adds or saturating-subtracts 100 ms and
converts through whole seconds, so no precision is lost).  A wall-clock
timestamp (chrono::DateTime<Local>) is modelled as milliseconds on a
linear clock; the hour/minute/second accessors are the usual divisions,
matching chrono's time-of-day accessors.  UI-only messages
(OpenRepositoryUrl, ToggleContextPage, UpdateConfig, LaunchUrl,
SubscriptionChannel, SendNotification) touch no time-tracking state and
are outside the embedded core, exactly as the specification scopes it.
Notification payloads are modelled by the numeric values the code
formats into the notification strings.
-/

namespace CosmicWatch

/-- chrono::NaiveTime as used by the app: an hour/minute/second triple. -/
structure NaiveTime where
  hour : Nat
  minute : Nat
  second : Nat
deriving DecidableEq, Repr

/-- chrono::NaiveTime::from_hms_opt: some time when in range, else none. -/
def fromHmsOpt (h m s : Nat) : Option NaiveTime :=
  if h ≤ 23 ∧ m ≤ 59 ∧ s ≤ 59 then some ⟨h, m, s⟩ else none

/-- chrono::NaiveTime::from_hms_opt(0,0,0).unwrap(), the SaveAlarm fallback. -/
def midnight : NaiveTime := ⟨0, 0, 0⟩

/-- Hour-of-day accessor of a millisecond wall-clock timestamp. -/
def tsHour (t : Nat) : Nat := t / 3600000 % 24

/-- Minute accessor of a millisecond wall-clock timestamp. -/
def tsMinute (t : Nat) : Nat := t / 60000 % 60

/-- Second accessor of a millisecond wall-clock timestamp. -/
def tsSecond (t : Nat) : Nat := t / 1000 % 60

/-- AlarmItem from app.rs (id: u32, time: NaiveTime, label, enabled). -/
structure AlarmItem where
  id : Nat
  time : NaiveTime
  label : String
  enabled : Bool
deriving DecidableEq, Repr

/-- AlarmEdit from app.rs: the in-progress alarm draft (id = none for new). -/
structure AlarmEdit where
  id : Option Nat
  hour : Nat
  minute : Nat
  label : String
deriving DecidableEq, Repr

/-- The time-tracking fields of AppModel in app.rs.  The GUI-framework
fields (core, context_page, nav, key_binds, config) are out of the
embedded core.  next_alarm_id models the u32 counter of app.rs; its only
arithmetic, the unchecked += 1 of SaveAlarm, is taken modulo 2^32 in
update, reproducing the release-build wrap-around. -/
structure AppModel where
  current_time : Nat
  stopwatch_time : Nat
  stopwatch_running : Bool
  timer_duration : Nat
  timer_remaining : Nat
  timer_running : Bool
  alarms : List AlarmItem
  next_alarm_id : Nat
  editing_alarm : Option AlarmEdit
deriving DecidableEq, Repr

/-- The outbound notification requests the core hands to the notifier.
AlarmFired carries the label and the formatted alarm time
(time.format of hour and minute); StopwatchStopped carries the formatted
elapsed time (hours, minutes, seconds of the elapsed whole seconds);
AlarmSet carries the formatted new alarm time. -/
inductive NotificationRequest where
  | AlarmFired (label : String) (hour minute : Nat)
  | TimerExpired
  | StopwatchStopped (hours minutes seconds : Nat)
  | AlarmSet (hour minute : Nat)
deriving DecidableEq, Repr

/-- The time-tracking messages of app.rs (UpdateTime carries the wall
clock the handler reads via chrono::Local::now()). -/
inductive Message where
  | UpdateTime (now : Nat)
  | StartStopwatch
  | StopStopwatch
  | ResetStopwatch
  | StartTimer
  | StopTimer
  | ResetTimer
  | SetTimerMinutes (minutes : Nat)
  | SetTimerSeconds (seconds : Nat)
  | AddAlarm
  | EditAlarm (id : Nat)
  | DeleteAlarm (id : Nat)
  | ToggleAlarm (id : Nat)
  | SaveAlarm
  | CancelAlarmEdit
  | AlarmEditHour (hour : Nat)
  | AlarmEditMinute (minute : Nat)
  | AlarmEditLabel (label : String)
deriving DecidableEq, Repr

/-- self.alarms.iter().find of Message::EditAlarm. -/
def findAlarm (id : Nat) : List AlarmItem → Option AlarmItem
  | [] => none
  | a :: rest => if a.id = id then some a else findAlarm id rest

/-- self.alarms.retain of Message::DeleteAlarm: drop every matching id. -/
def deleteAlarm (id : Nat) : List AlarmItem → List AlarmItem
  | [] => []
  | a :: rest => if a.id = id then deleteAlarm id rest else a :: deleteAlarm id rest

/-- iter_mut().find of Message::ToggleAlarm: flip enabled on the first
matching alarm only. -/
def toggleFirst (id : Nat) : List AlarmItem → List AlarmItem
  | [] => []
  | a :: rest =>
    if a.id = id then { a with enabled := !a.enabled } :: rest
    else a :: toggleFirst id rest

/-- iter_mut().find of the SaveAlarm edit branch: overwrite time and label
of the first matching alarm only. -/
def updateFirst (id : Nat) (time : NaiveTime) (label : String) :
    List AlarmItem → List AlarmItem
  | [] => []
  | a :: rest =>
    if a.id = id then { a with time := time, label := label } :: rest
    else a :: updateFirst id time label rest

/-- AppModel::check_alarms: emit AlarmFired for every enabled alarm whose
hour and minute match the current time while the current second is 0. -/
def check_alarms (s : AppModel) : List NotificationRequest :=
  s.alarms.filterMap (fun alarm =>
    if alarm.enabled = true ∧ alarm.time.hour = tsHour s.current_time ∧
        alarm.time.minute = tsMinute s.current_time ∧
        tsSecond s.current_time = 0 then
      some (.AlarmFired alarm.label alarm.time.hour alarm.time.minute)
    else none)

/-- Stopwatch part of Message::UpdateTime: a fixed 100 ms is added per
tick while running. -/
def tickStopwatch (s : AppModel) : AppModel :=
  if s.stopwatch_running = true then
    { s with stopwatch_time := s.stopwatch_time + 100 }
  else s

/-- Timer part of Message::UpdateTime: saturating-subtract 100 ms while
running and positive; on reaching zero stop the timer and emit
TimerExpired. -/
def tickTimer (s : AppModel) : AppModel × List NotificationRequest :=
  if s.timer_running = true ∧ 0 < s.timer_remaining then
    if s.timer_remaining - 100 = 0 then
      ({ s with timer_remaining := s.timer_remaining - 100, timer_running := false },
        [NotificationRequest.TimerExpired])
    else
      ({ s with timer_remaining := s.timer_remaining - 100 }, [])
  else (s, [])

/-- Message::UpdateTime in order: refresh the clock, advance the
stopwatch, advance the timer, then check alarms. -/
def tick (s : AppModel) (now : Nat) : AppModel × List NotificationRequest :=
  let s2 := tickStopwatch { s with current_time := now }
  let r := tickTimer s2
  (r.1, r.2 ++ check_alarms r.1)

/-- 2^32: the modulus of the u32 arithmetic of app.rs.  The only u32
arithmetic the core performs is the unchecked next_alarm_id += 1, which
wraps at this modulus in a release build (a debug build panics there
instead). -/
def u32Mod : Nat := 4294967296

/-- The update handler of app.rs restricted to the time-tracking core. -/
def update (s : AppModel) (msg : Message) : AppModel × List NotificationRequest :=
  match msg with
  | .UpdateTime now => tick s now
  | .StartStopwatch => ({ s with stopwatch_running := true }, [])
  | .StopStopwatch =>
    ({ s with stopwatch_running := false },
      [NotificationRequest.StopwatchStopped (s.stopwatch_time / 1000 / 3600)
        (s.stopwatch_time / 1000 % 3600 / 60) (s.stopwatch_time / 1000 % 60)])
  | .ResetStopwatch => ({ s with stopwatch_running := false, stopwatch_time := 0 }, [])
  | .StartTimer => ({ s with timer_running := true }, [])
  | .StopTimer => ({ s with timer_running := false }, [])
  | .ResetTimer =>
    ({ s with timer_running := false, timer_remaining := s.timer_duration }, [])
  | .SetTimerMinutes minutes =>
    let d := 1000 * (minutes * 60 + s.timer_duration / 1000 % 60)
    ({ s with timer_duration := d, timer_remaining := d }, [])
  | .SetTimerSeconds seconds =>
    let d := 1000 * (s.timer_duration / 1000 / 60 * 60 + seconds)
    ({ s with timer_duration := d, timer_remaining := d }, [])
  | .AddAlarm =>
    ({ s with editing_alarm :=
        (some ⟨none, tsHour s.current_time, tsMinute s.current_time, ""⟩) }, [])
  | .EditAlarm id =>
    match findAlarm id s.alarms with
    | some alarm =>
      ({ s with editing_alarm :=
          (some ⟨some id, alarm.time.hour, alarm.time.minute, alarm.label⟩) }, [])
    | none => (s, [])
  | .DeleteAlarm id => ({ s with alarms := deleteAlarm id s.alarms }, [])
  | .ToggleAlarm id => ({ s with alarms := toggleFirst id s.alarms }, [])
  | .SaveAlarm =>
    match s.editing_alarm with
    | none => (s, [])
    | some edit =>
      let time := (fromHmsOpt edit.hour edit.minute 0).getD midnight
      match edit.id with
      | some id =>
        ({ s with alarms := updateFirst id time edit.label s.alarms, editing_alarm := none }, [])
      | none =>
        let item : AlarmItem := ⟨s.next_alarm_id, time, edit.label, true⟩
        ({ s with alarms := s.alarms ++ [item], next_alarm_id := (s.next_alarm_id + 1) % u32Mod, editing_alarm := none },
          [NotificationRequest.AlarmSet time.hour time.minute])
  | .CancelAlarmEdit => ({ s with editing_alarm := none }, [])
  | .AlarmEditHour hour =>
    match s.editing_alarm with
    | some edit =>
      ({ s with editing_alarm := some { edit with hour := min hour 23 } }, [])
    | none => (s, [])
  | .AlarmEditMinute minute =>
    match s.editing_alarm with
    | some edit =>
      ({ s with editing_alarm := some { edit with minute := min minute 59 } }, [])
    | none => (s, [])
  | .AlarmEditLabel label =>
    match s.editing_alarm with
    | some edit => ({ s with editing_alarm := some { edit with label := label } }, [])
    | none => (s, [])

/-- AppModel::init restricted to the time-tracking core, parametrised by
the startup wall clock (the code reads chrono::Local::now()). -/
def initModel (t0 : Nat) : AppModel :=
  { current_time := t0
    stopwatch_time := 0
    stopwatch_running := false
    timer_duration := 300000
    timer_remaining := 300000
    timer_running := false
    alarms := []
    next_alarm_id := 1
    editing_alarm := none }

/-- Run a sequence of messages, keeping only the final state. -/
def run (s : AppModel) : List Message → AppModel
  | [] => s
  | m :: ms => run (update s m).1 ms

/-- Run a sequence of messages, collecting the emitted notifications in
order. -/
def runTrace (s : AppModel) : List Message → AppModel × List NotificationRequest
  | [] => (s, [])
  | m :: ms =>
    let r := update s m
    let rest := runTrace r.1 ms
    (rest.1, r.2 ++ rest.2)

/-- A state the application can be in: reachable from some startup state
by some sequence of core messages. -/
def Reachable (s : AppModel) : Prop :=
  ∃ t0 msgs, run (initModel t0) msgs = s

/-- The minutes component the timer view shows of a millisecond duration. -/
def durMinutes (d : Nat) : Nat := d / 1000 / 60

/-- The seconds component the timer view shows of a millisecond duration. -/
def durSeconds (d : Nat) : Nat := d / 1000 % 60

/-- The alarm that the AddAlarm-then-SaveAlarm sequence appends to a
state: a fresh id at the clock's current hour and minute with an empty
label. -/
def newAlarmItem (s : AppModel) : AlarmItem :=
  ⟨s.next_alarm_id, (fromHmsOpt (tsHour s.current_time) (tsMinute s.current_time) 0).getD midnight, "", true⟩

/-- n repetitions of the AddAlarm-then-SaveAlarm command pair, each of
which creates one new alarm. -/
def savePairs : Nat → List Message
  | 0 => []
  | n + 1 => Message.AddAlarm :: Message.SaveAlarm :: savePairs n

end CosmicWatch

namespace CosmicWatch

/-- updateFirst leaves a list untouched when no alarm carries the id. -/
theorem updateFirst_no_match (id : Nat) (t : NaiveTime) (lbl : String) :
    ∀ l : List AlarmItem, (∀ a ∈ l, a.id ≠ id) → updateFirst id t lbl l = l := by
  intro l
  induction l with
  | nil => intro _; rfl
  | cons a rest ih =>
    intro h
    rw [updateFirst, if_neg (h a (List.mem_cons_self a rest)), ih]
    intro b hb
    exact h b (List.mem_cons_of_mem a hb)

/-- toggleFirst leaves a list untouched when no alarm carries the id. -/
theorem toggleFirst_no_match (id : Nat) :
    ∀ l : List AlarmItem, (∀ a ∈ l, a.id ≠ id) → toggleFirst id l = l := by
  intro l
  induction l with
  | nil => intro _; rfl
  | cons a rest ih =>
    intro h
    rw [toggleFirst, if_neg (h a (List.mem_cons_self a rest)), ih]
    intro b hb
    exact h b (List.mem_cons_of_mem a hb)

/-- A pointwise-reflexive relation relates every alarm list to itself. -/
theorem forall₂_self_alarms (R : AlarmItem → AlarmItem → Prop) (hR : ∀ a, R a a) :
    ∀ l : List AlarmItem, List.Forall₂ R l l := by
  intro l
  induction l with
  | nil => exact List.Forall₂.nil
  | cons a rest ih => exact List.Forall₂.cons (hR a) ih

/-- toggleFirst keeps every alarm's id, time and label, pointwise in order. -/
theorem toggleFirst_keeps (id : Nat) :
    ∀ l : List AlarmItem,
      List.Forall₂ (fun a b => a.id = b.id ∧ a.time = b.time ∧ a.label = b.label)
        l (toggleFirst id l) := by
  intro l
  induction l with
  | nil => exact List.Forall₂.nil
  | cons a rest ih =>
    rw [toggleFirst]
    by_cases h : a.id = id
    · rw [if_pos h]
      exact List.Forall₂.cons ⟨rfl, rfl, rfl⟩
        (forall₂_self_alarms _ (fun a => ⟨rfl, rfl, rfl⟩) rest)
    · rw [if_neg h]
      exact List.Forall₂.cons ⟨rfl, rfl, rfl⟩ ih

/-- toggleFirst leaves every alarm with a different id fully unchanged,
pointwise in order. -/
theorem toggleFirst_other (id : Nat) :
    ∀ l : List AlarmItem,
      List.Forall₂ (fun a b => a.id ≠ id → b = a) l (toggleFirst id l) := by
  intro l
  induction l with
  | nil => exact List.Forall₂.nil
  | cons a rest ih =>
    rw [toggleFirst]
    by_cases h : a.id = id
    · rw [if_pos h]
      exact List.Forall₂.cons (fun hne => absurd h hne)
        (forall₂_self_alarms _ (fun a _ => rfl) rest)
    · rw [if_neg h]
      exact List.Forall₂.cons (fun _ => rfl) ih

end CosmicWatch

namespace CosmicWatch

/-- Unfolding equation for a tick in terms of its three stages. -/
theorem tick_eq (s : AppModel) (now : Nat) :
    tick s now = ((tickTimer (tickStopwatch { s with current_time := now })).1,
      (tickTimer (tickStopwatch { s with current_time := now })).2 ++
        check_alarms (tickTimer (tickStopwatch { s with current_time := now })).1) := rfl

/-- tickStopwatch changes no field except stopwatch_time. -/
theorem tickStopwatch_frame (s : AppModel) :
    (tickStopwatch s).current_time = s.current_time ∧
    (tickStopwatch s).stopwatch_running = s.stopwatch_running ∧
    (tickStopwatch s).timer_duration = s.timer_duration ∧
    (tickStopwatch s).timer_remaining = s.timer_remaining ∧
    (tickStopwatch s).timer_running = s.timer_running ∧
    (tickStopwatch s).alarms = s.alarms ∧
    (tickStopwatch s).next_alarm_id = s.next_alarm_id ∧
    (tickStopwatch s).editing_alarm = s.editing_alarm := by
  rw [tickStopwatch]
  split <;> exact ⟨rfl, rfl, rfl, rfl, rfl, rfl, rfl, rfl⟩

/-- tickTimer changes no field except timer_remaining and timer_running. -/
theorem tickTimer_frame (s : AppModel) :
    (tickTimer s).1.current_time = s.current_time ∧
    (tickTimer s).1.stopwatch_time = s.stopwatch_time ∧
    (tickTimer s).1.stopwatch_running = s.stopwatch_running ∧
    (tickTimer s).1.timer_duration = s.timer_duration ∧
    (tickTimer s).1.alarms = s.alarms ∧
    (tickTimer s).1.next_alarm_id = s.next_alarm_id ∧
    (tickTimer s).1.editing_alarm = s.editing_alarm := by
  rw [tickTimer]
  split
  · split <;> exact ⟨rfl, rfl, rfl, rfl, rfl, rfl, rfl⟩
  · exact ⟨rfl, rfl, rfl, rfl, rfl, rfl, rfl⟩

/-- The timer never gains time on a tick. -/
theorem tickTimer_remaining_le (s : AppModel) :
    (tickTimer s).1.timer_remaining ≤ s.timer_remaining := by
  rw [tickTimer]
  split
  · split
    · exact Nat.sub_le s.timer_remaining 100
    · exact Nat.sub_le s.timer_remaining 100
  · exact Nat.le_refl s.timer_remaining

/-- tickTimer is the identity when the timer is not actively counting. -/
theorem tickTimer_not_active (s : AppModel)
    (h : ¬(s.timer_running = true ∧ 0 < s.timer_remaining)) :
    tickTimer s = (s, []) := by
  rw [tickTimer, if_neg h]

/-- tickTimer on an active timer that hits zero: stop and notify once. -/
theorem tickTimer_expire (s : AppModel)
    (h : s.timer_running = true ∧ 0 < s.timer_remaining)
    (h0 : s.timer_remaining - 100 = 0) :
    tickTimer s = ({ s with timer_remaining := s.timer_remaining - 100, timer_running := false }, [NotificationRequest.TimerExpired]) := by
  rw [tickTimer, if_pos h, if_pos h0]

/-- tickTimer on an active timer still above zero: count down silently. -/
theorem tickTimer_cont (s : AppModel)
    (h : s.timer_running = true ∧ 0 < s.timer_remaining)
    (h0 : s.timer_remaining - 100 ≠ 0) :
    tickTimer s = ({ s with timer_remaining := s.timer_remaining - 100 }, []) := by
  rw [tickTimer, if_pos h, if_neg h0]

/-- check_alarms emits only AlarmFired requests, never TimerExpired. -/
theorem check_alarms_no_timerExpired (s : AppModel) :
    (check_alarms s).count NotificationRequest.TimerExpired = 0 := by
  rw [List.count_eq_zero]
  intro hmem
  rw [check_alarms, List.mem_filterMap] at hmem
  obtain ⟨a, _, ha⟩ := hmem
  split at ha
  · exact NotificationRequest.noConfusion (Option.some.inj ha)
  · exact Option.noConfusion ha

end CosmicWatch

namespace CosmicWatch

/-- A tick sets the clock to now and leaves the alarm collection, the
next id and the draft untouched. -/
theorem tick_frame (s : AppModel) (now : Nat) :
    (tick s now).1.current_time = now ∧
    (tick s now).1.alarms = s.alarms ∧
    (tick s now).1.next_alarm_id = s.next_alarm_id ∧
    (tick s now).1.editing_alarm = s.editing_alarm ∧
    (tick s now).1.timer_duration = s.timer_duration := by
  rw [tick_eq]
  have h1 := tickStopwatch_frame { s with current_time := now }
  have h2 := tickTimer_frame (tickStopwatch { s with current_time := now })
  refine ⟨?_, ?_, ?_, ?_, ?_⟩
  · rw [h2.1, h1.1]
  · rw [h2.2.2.2.2.1, h1.2.2.2.2.2.1]
  · rw [h2.2.2.2.2.2.1, h1.2.2.2.2.2.2.1]
  · rw [h2.2.2.2.2.2.2, h1.2.2.2.2.2.2.2]
  · rw [h2.2.2.2.1, h1.2.2.1]

end CosmicWatch

namespace CosmicWatch

/-- C8: stop_stopwatch sets running to false, emits StopwatchStopped
carrying the current elapsed value (formatted as hours, minutes, seconds
exactly as the code formats it), leaves elapsed unchanged, and a second
stop in a row re-emits the very same notification. -/
theorem claim_C8_stop_stopwatch_reemits (s : AppModel) :
    update s Message.StopStopwatch = ({ s with stopwatch_running := false }, [NotificationRequest.StopwatchStopped (s.stopwatch_time / 1000 / 3600) (s.stopwatch_time / 1000 % 3600 / 60) (s.stopwatch_time / 1000 % 60)]) ∧
    (update s Message.StopStopwatch).1.stopwatch_time = s.stopwatch_time ∧
    (update (update s Message.StopStopwatch).1 Message.StopStopwatch).2 =
      (update s Message.StopStopwatch).2 :=
  ⟨rfl, rfl, rfl⟩

/-- C10: toggle_alarm changes at most the enabled flag of the matching
alarm: it emits nothing, leaves every non-alarm field unchanged, keeps
every alarm's id, time and label pointwise in order, leaves every alarm
with a different id fully unchanged, and is the identity on the whole
state when no alarm carries the id. -/
theorem claim_C10_toggle_alarm_frame (s : AppModel) (id : Nat) :
    ((∀ a ∈ s.alarms, a.id ≠ id) → (update s (Message.ToggleAlarm id)).1 = s) ∧
    (update s (Message.ToggleAlarm id)).2 = [] ∧
    (update s (Message.ToggleAlarm id)).1.current_time = s.current_time ∧
    (update s (Message.ToggleAlarm id)).1.stopwatch_time = s.stopwatch_time ∧
    (update s (Message.ToggleAlarm id)).1.stopwatch_running = s.stopwatch_running ∧
    (update s (Message.ToggleAlarm id)).1.timer_duration = s.timer_duration ∧
    (update s (Message.ToggleAlarm id)).1.timer_remaining = s.timer_remaining ∧
    (update s (Message.ToggleAlarm id)).1.timer_running = s.timer_running ∧
    (update s (Message.ToggleAlarm id)).1.next_alarm_id = s.next_alarm_id ∧
    (update s (Message.ToggleAlarm id)).1.editing_alarm = s.editing_alarm ∧
    List.Forall₂ (fun a b => a.id = b.id ∧ a.time = b.time ∧ a.label = b.label)
      s.alarms (update s (Message.ToggleAlarm id)).1.alarms ∧
    List.Forall₂ (fun a b => a.id ≠ id → b = a)
      s.alarms (update s (Message.ToggleAlarm id)).1.alarms := by
  refine ⟨?_, rfl, rfl, rfl, rfl, rfl, rfl, rfl, rfl, rfl, ?_, ?_⟩
  · intro h
    show ({ s with alarms := toggleFirst id s.alarms } : AppModel) = s
    rw [toggleFirst_no_match id s.alarms h]
  · exact toggleFirst_keeps id s.alarms
  · exact toggleFirst_other id s.alarms

/-- Witness for C10: toggling an absent id on a concrete one-alarm state
is the identity. -/
theorem claim_C10_toggle_alarm_frame_witness :
    (update { initModel 0 with alarms := [⟨1, ⟨8, 30, 0⟩, "wake", true⟩] }
        (Message.ToggleAlarm 2)).1 =
      { initModel 0 with alarms := [⟨1, ⟨8, 30, 0⟩, "wake", true⟩] } :=
  (claim_C10_toggle_alarm_frame
    { initModel 0 with alarms := [⟨1, ⟨8, 30, 0⟩, "wake", true⟩] } 2).1 (by decide)

/-- C6: when the draft targets an alarm id that no longer exists,
SaveAlarm only clears the draft: the alarm list and all other state are
unchanged and no notification is emitted. -/
theorem claim_C6_save_alarm_deleted_target (s : AppModel) (e : AlarmEdit) (id : Nat)
    (hdraft : s.editing_alarm = some e) (hid : e.id = some id)
    (habs : ∀ a ∈ s.alarms, a.id ≠ id) :
    update s Message.SaveAlarm = ({ s with editing_alarm := none }, []) := by
  simp only [update, hdraft, hid]
  rw [updateFirst_no_match id _ _ s.alarms habs]

/-- Witness for C6 on a concrete state whose draft targets the deleted
id 5. -/
theorem claim_C6_save_alarm_deleted_target_witness :
    update { initModel 0 with editing_alarm := some ⟨some 5, 9, 15, "gym"⟩ }
        Message.SaveAlarm =
      ({ initModel 0 with editing_alarm := none }, []) :=
  claim_C6_save_alarm_deleted_target
    { initModel 0 with editing_alarm := some ⟨some 5, 9, 15, "gym"⟩ }
    ⟨some 5, 9, 15, "gym"⟩ 5 rfl rfl (by decide)

end CosmicWatch

namespace CosmicWatch

/-- C5: the minutes setter recomposes the configured duration from the
new minutes and the current seconds component, the seconds setter from
the current minutes component and the new seconds; each setter copies
the new duration into remaining and leaves running unchanged; and
set_timer_duration(5, 30) followed by setting minutes to 2 yields
2 minutes 30 seconds (150000 ms) from any starting state. -/
theorem claim_C5_set_timer_setters_recompose (s : AppModel) (m sec : Nat)
    (hsec : sec ≤ 59) :
    durMinutes (update s (Message.SetTimerMinutes m)).1.timer_duration = m ∧
    durSeconds (update s (Message.SetTimerMinutes m)).1.timer_duration =
      durSeconds s.timer_duration ∧
    (update s (Message.SetTimerMinutes m)).1.timer_remaining =
      (update s (Message.SetTimerMinutes m)).1.timer_duration ∧
    (update s (Message.SetTimerMinutes m)).1.timer_running = s.timer_running ∧
    durMinutes (update s (Message.SetTimerSeconds sec)).1.timer_duration =
      durMinutes s.timer_duration ∧
    durSeconds (update s (Message.SetTimerSeconds sec)).1.timer_duration = sec ∧
    (update s (Message.SetTimerSeconds sec)).1.timer_remaining =
      (update s (Message.SetTimerSeconds sec)).1.timer_duration ∧
    (update s (Message.SetTimerSeconds sec)).1.timer_running = s.timer_running ∧
    (run s [Message.SetTimerMinutes 5, Message.SetTimerSeconds 30,
      Message.SetTimerMinutes 2]).timer_duration = 150000 ∧
    (run s [Message.SetTimerMinutes 5, Message.SetTimerSeconds 30,
      Message.SetTimerMinutes 2]).timer_remaining = 150000 := by
  refine ⟨?_, ?_, rfl, rfl, ?_, ?_, rfl, rfl, ?_, ?_⟩
  · show durMinutes (1000 * (m * 60 + s.timer_duration / 1000 % 60)) = m
    rw [durMinutes]
    omega
  · show durSeconds (1000 * (m * 60 + s.timer_duration / 1000 % 60)) =
      durSeconds s.timer_duration
    rw [durSeconds, durSeconds]
    omega
  · show durMinutes (1000 * (s.timer_duration / 1000 / 60 * 60 + sec)) =
      durMinutes s.timer_duration
    rw [durMinutes, durMinutes]
    omega
  · show durSeconds (1000 * (s.timer_duration / 1000 / 60 * 60 + sec)) = sec
    rw [durSeconds]
    omega
  · show 1000 * (2 * 60 + 1000 * (1000 * (5 * 60 + s.timer_duration / 1000 % 60) /
      1000 / 60 * 60 + 30) / 1000 % 60) = 150000
    omega
  · show 1000 * (2 * 60 + 1000 * (1000 * (5 * 60 + s.timer_duration / 1000 % 60) /
      1000 / 60 * 60 + 30) / 1000 % 60) = 150000
    omega

/-- Witness for C5 at a concrete starting state and seconds value. -/
theorem claim_C5_set_timer_setters_recompose_witness :
    durMinutes (update (initModel 0) (Message.SetTimerMinutes 2)).1.timer_duration = 2 :=
  (claim_C5_set_timer_setters_recompose (initModel 0) 2 30 (by decide)).1

end CosmicWatch

namespace CosmicWatch

/-- C1 failing run: an enabled 08:30 alarm is saved, the stopwatch is
started (which in the app switches the tick source to every 100 ms), and
two ticks land at 08:30:00.000 and 08:30:00.100.  Both ticks are in the
same calendar minute, yet AlarmFired is emitted twice: check_alarms has
no per-alarm fired-minute guard, only the second-equals-zero test. -/
theorem claim_C1_alarm_double_fire_same_minute :
    (runTrace (initModel 0)
        [Message.AddAlarm, Message.AlarmEditHour 8, Message.AlarmEditMinute 30,
          Message.SaveAlarm, Message.StartStopwatch,
          Message.UpdateTime 30600000, Message.UpdateTime 30600100]).2 =
      [NotificationRequest.AlarmSet 8 30, NotificationRequest.AlarmFired "" 8 30,
        NotificationRequest.AlarmFired "" 8 30] ∧
    tsHour 30600000 = tsHour 30600100 ∧
    tsMinute 30600000 = tsMinute 30600100 ∧
    tsSecond 30600000 = 0 ∧ tsSecond 30600100 = 0 :=
  ⟨rfl, rfl, rfl, rfl, rfl⟩

/-- C3 failing run: with the stopwatch running, ticks at wall clock
1000 ms and 2000 ms (total wall time 2000 ms from the start clock 0)
increase elapsed by only 200 ms: the handler adds a fixed nominal 100 ms
per tick instead of the actual wall-clock delta. -/
theorem claim_C3_stopwatch_fixed_increment_drifts :
    (run (initModel 0) [Message.StartStopwatch, Message.UpdateTime 1000,
        Message.UpdateTime 2000]).current_time = 2000 ∧
    (run (initModel 0) [Message.StartStopwatch, Message.UpdateTime 1000,
        Message.UpdateTime 2000]).stopwatch_time = 200 ∧
    (200 : Nat) ≠ 2000 :=
  ⟨rfl, rfl, by decide⟩

/-- Counterexample to C4 as stated: setting the timer to zero minutes
(the default 300 s duration has no seconds component, so the new
configured duration is zero) and then pressing start reaches a state
with remaining = 0 and running = true; StartTimer does not force
running to false when remaining is already zero. -/
theorem claim_C4_zero_remaining_running_counterexample :
    (run (initModel 0) [Message.SetTimerMinutes 0, Message.StartTimer]).timer_remaining
        = 0 ∧
    (run (initModel 0) [Message.SetTimerMinutes 0, Message.StartTimer]).timer_running
        = true :=
  ⟨rfl, rfl⟩

end CosmicWatch

namespace CosmicWatch

/-- A tick on a timer that is already at zero changes no timer field and
emits no TimerExpired. -/
theorem tick_timer_zero (s : AppModel) (now : Nat) (h : s.timer_remaining = 0) :
    (tick s now).1.timer_remaining = 0 ∧
    (tick s now).1.timer_running = s.timer_running ∧
    (tick s now).2.count NotificationRequest.TimerExpired = 0 := by
  rw [tick_eq]
  have hsw := tickStopwatch_frame { s with current_time := now }
  have h2 : (tickStopwatch { s with current_time := now }).timer_remaining = 0 := by
    rw [hsw.2.2.2.1]; exact h
  have hna := tickTimer_not_active (tickStopwatch { s with current_time := now })
    (by intro hc; rw [h2] at hc; exact Nat.lt_irrefl 0 hc.2)
  rw [hna]
  refine ⟨h2, hsw.2.2.2.2.1, ?_⟩
  exact check_alarms_no_timerExpired (tickStopwatch { s with current_time := now })

/-- A tick on a running timer with at most 100 ms left: remaining becomes
zero, running becomes false, and exactly one TimerExpired is emitted. -/
theorem tick_timer_expire (s : AppModel) (now : Nat)
    (hrun : s.timer_running = true) (hpos : 0 < s.timer_remaining)
    (hle : s.timer_remaining ≤ 100) :
    (tick s now).1.timer_remaining = 0 ∧
    (tick s now).1.timer_running = false ∧
    (tick s now).2.count NotificationRequest.TimerExpired = 1 := by
  rw [tick_eq]
  have hsw := tickStopwatch_frame { s with current_time := now }
  set X := tickStopwatch { s with current_time := now } with hX
  have hrem : X.timer_remaining = s.timer_remaining := hsw.2.2.2.1
  have hrun2 : X.timer_running = true := by rw [hsw.2.2.2.2.1]; exact hrun
  have hpos2 : 0 < X.timer_remaining := by rw [hrem]; exact hpos
  have h0 : X.timer_remaining - 100 = 0 := by rw [hrem]; omega
  have he := tickTimer_expire X ⟨hrun2, hpos2⟩ h0
  rw [he]
  refine ⟨h0, rfl, ?_⟩
  rw [List.count_append, check_alarms_no_timerExpired]
  rfl

/-- A tick on a running timer with more than 100 ms left: remaining drops
by 100 ms, running stays true, and no TimerExpired is emitted. -/
theorem tick_timer_cont (s : AppModel) (now : Nat)
    (hrun : s.timer_running = true) (hgt : 100 < s.timer_remaining) :
    (tick s now).1.timer_remaining = s.timer_remaining - 100 ∧
    (tick s now).1.timer_running = true ∧
    (tick s now).2.count NotificationRequest.TimerExpired = 0 := by
  rw [tick_eq]
  have hsw := tickStopwatch_frame { s with current_time := now }
  set X := tickStopwatch { s with current_time := now } with hX
  have hrem : X.timer_remaining = s.timer_remaining := hsw.2.2.2.1
  have hrun2 : X.timer_running = true := by rw [hsw.2.2.2.2.1]; exact hrun
  have hpos2 : 0 < X.timer_remaining := by rw [hrem]; omega
  have h0 : X.timer_remaining - 100 ≠ 0 := by rw [hrem]; omega
  have hc := tickTimer_cont X ⟨hrun2, hpos2⟩ h0
  rw [hc]
  refine ⟨by rw [← hrem], hrun2, ?_⟩
  rw [List.count_append, check_alarms_no_timerExpired]
  rfl

/-- Over any list of ticks, a timer at zero stays at zero, its running
flag never changes, and no TimerExpired is ever emitted. -/
theorem ticks_timer_zero (ts : List Nat) : ∀ s : AppModel, s.timer_remaining = 0 →
    (runTrace s (ts.map Message.UpdateTime)).1.timer_remaining = 0 ∧
    (runTrace s (ts.map Message.UpdateTime)).1.timer_running = s.timer_running ∧
    (runTrace s (ts.map Message.UpdateTime)).2.count NotificationRequest.TimerExpired
      = 0 := by
  induction ts with
  | nil => intro s h; exact ⟨h, rfl, rfl⟩
  | cons now ts ih =>
    intro s h
    have hstep := tick_timer_zero s now h
    have hrest := ih (tick s now).1 hstep.1
    refine ⟨hrest.1, hrest.2.1.trans hstep.2.1, ?_⟩
    show ((tick s now).2 ++
      (runTrace (tick s now).1 (ts.map Message.UpdateTime)).2).count
        NotificationRequest.TimerExpired = 0
    rw [List.count_append, hstep.2.2, hrest.2.2]

end CosmicWatch

namespace CosmicWatch

/-- C2: a running timer with positive remaining time reaches exactly zero
after enough ticks (the code subtracts the fixed nominal tick delta of
100 ms per tick, so cumulative delta is 100 ms times the tick count),
running becomes false, TimerExpired is emitted exactly once over the
whole run, and any further ticks leave remaining at zero and emit no
further TimerExpired. -/
theorem claim_C2_timer_run_to_zero : ∀ (ts : List Nat) (s : AppModel),
    s.timer_running = true → 0 < s.timer_remaining →
    s.timer_remaining ≤ 100 * ts.length →
    (runTrace s (ts.map Message.UpdateTime)).1.timer_remaining = 0 ∧
    (runTrace s (ts.map Message.UpdateTime)).1.timer_running = false ∧
    (runTrace s (ts.map Message.UpdateTime)).2.count NotificationRequest.TimerExpired
      = 1 ∧
    ∀ more : List Nat,
      (runTrace (runTrace s (ts.map Message.UpdateTime)).1
        (more.map Message.UpdateTime)).1.timer_remaining = 0 ∧
      (runTrace (runTrace s (ts.map Message.UpdateTime)).1
        (more.map Message.UpdateTime)).2.count NotificationRequest.TimerExpired
        = 0 := by
  intro ts
  induction ts with
  | nil =>
    intro s hrun hpos hsum
    exfalso
    simp only [List.length_nil, Nat.mul_zero] at hsum
    omega
  | cons now ts ih =>
    intro s hrun hpos hsum
    by_cases hle : s.timer_remaining ≤ 100
    · have hstep := tick_timer_expire s now hrun hpos hle
      have hrest := ticks_timer_zero ts (tick s now).1 hstep.1
      refine ⟨hrest.1, hrest.2.1.trans hstep.2.1, ?_, ?_⟩
      · show ((tick s now).2 ++
          (runTrace (tick s now).1 (ts.map Message.UpdateTime)).2).count
            NotificationRequest.TimerExpired = 1
        rw [List.count_append, hstep.2.2, hrest.2.2]
      · intro more
        have hmore := ticks_timer_zero more
          (runTrace (tick s now).1 (ts.map Message.UpdateTime)).1 hrest.1
        exact ⟨hmore.1, hmore.2.2⟩
    · have hgt : 100 < s.timer_remaining := by omega
      have hstep := tick_timer_cont s now hrun hgt
      have hpos2 : 0 < (tick s now).1.timer_remaining := by rw [hstep.1]; omega
      have hsum2 : (tick s now).1.timer_remaining ≤ 100 * ts.length := by
        rw [hstep.1]
        simp only [List.length_cons] at hsum
        omega
      have hrest := ih (tick s now).1 hstep.2.1 hpos2 hsum2
      refine ⟨hrest.1, hrest.2.1, ?_, hrest.2.2.2⟩
      show ((tick s now).2 ++
        (runTrace (tick s now).1 (ts.map Message.UpdateTime)).2).count
          NotificationRequest.TimerExpired = 1
      rw [List.count_append, hstep.2.2, hrest.2.2.1]

/-- Witness for C2: a 250 ms timer expires exactly once over three ticks. -/
theorem claim_C2_timer_run_to_zero_witness :
    (runTrace { initModel 0 with timer_running := true, timer_remaining := 250 }
        ([0, 100, 200].map Message.UpdateTime)).1.timer_remaining = 0 ∧
    (runTrace { initModel 0 with timer_running := true, timer_remaining := 250 }
        ([0, 100, 200].map Message.UpdateTime)).2.count
          NotificationRequest.TimerExpired = 1 :=
  ⟨(claim_C2_timer_run_to_zero [0, 100, 200]
      { initModel 0 with timer_running := true, timer_remaining := 250 }
      rfl (by decide) (by decide)).1,
    (claim_C2_timer_run_to_zero [0, 100, 200]
      { initModel 0 with timer_running := true, timer_remaining := 250 }
      rfl (by decide) (by decide)).2.2.1⟩

end CosmicWatch

namespace CosmicWatch

/-- Every single step preserves remaining ≤ configured duration. -/
theorem timer_le_step (s : AppModel) (m : Message)
    (h : s.timer_remaining ≤ s.timer_duration) :
    (update s m).1.timer_remaining ≤ (update s m).1.timer_duration := by
  cases m with
  | UpdateTime now =>
    show (tick s now).1.timer_remaining ≤ (tick s now).1.timer_duration
    rw [tick_eq]
    have hsw := tickStopwatch_frame { s with current_time := now }
    set X := tickStopwatch { s with current_time := now } with hX
    have htt := tickTimer_frame X
    calc (tickTimer X).1.timer_remaining ≤ X.timer_remaining :=
          tickTimer_remaining_le X
      _ = s.timer_remaining := hsw.2.2.2.1
      _ ≤ s.timer_duration := h
      _ = X.timer_duration := hsw.2.2.1.symm
      _ = (tickTimer X).1.timer_duration := htt.2.2.2.1.symm
  | StartStopwatch => exact h
  | StopStopwatch => exact h
  | ResetStopwatch => exact h
  | StartTimer => exact h
  | StopTimer => exact h
  | ResetTimer => exact Nat.le_refl s.timer_duration
  | SetTimerMinutes minutes => exact Nat.le_refl _
  | SetTimerSeconds seconds => exact Nat.le_refl _
  | AddAlarm => exact h
  | EditAlarm id =>
    cases hfa : findAlarm id s.alarms <;> simp only [update, hfa] <;> exact h
  | DeleteAlarm id => exact h
  | ToggleAlarm id => exact h
  | SaveAlarm =>
    cases hE : s.editing_alarm with
    | none => simp only [update, hE]; exact h
    | some e =>
      cases hid : e.id with
      | some tid => simp only [update, hE, hid]; exact h
      | none => simp only [update, hE, hid]; exact h
  | CancelAlarmEdit => exact h
  | AlarmEditHour hour =>
    cases hE : s.editing_alarm <;> simp only [update, hE] <;> exact h
  | AlarmEditMinute minute =>
    cases hE : s.editing_alarm <;> simp only [update, hE] <;> exact h
  | AlarmEditLabel label =>
    cases hE : s.editing_alarm <;> simp only [update, hE] <;> exact h

/-- The remaining ≤ duration invariant carries over whole runs. -/
theorem run_timer_le (msgs : List Message) : ∀ s : AppModel,
    s.timer_remaining ≤ s.timer_duration →
    (run s msgs).timer_remaining ≤ (run s msgs).timer_duration := by
  induction msgs with
  | nil => intro s h; exact h
  | cons m ms ih => intro s h; exact ih (update s m).1 (timer_le_step s m h)

/-- Whenever a tick takes the remaining time from positive to zero, the
same tick switches the running flag off. -/
theorem tick_expiry_stops (s : AppModel) (now : Nat)
    (hpos : 0 < s.timer_remaining)
    (h0 : (update s (Message.UpdateTime now)).1.timer_remaining = 0) :
    (update s (Message.UpdateTime now)).1.timer_running = false := by
  show (tickTimer (tickStopwatch { s with current_time := now })).1.timer_running
    = false
  have hsw := tickStopwatch_frame { s with current_time := now }
  set X := tickStopwatch { s with current_time := now } with hX
  have h0X : (tickTimer X).1.timer_remaining = 0 := h0
  by_cases hact : X.timer_running = true ∧ 0 < X.timer_remaining
  · by_cases hz : X.timer_remaining - 100 = 0
    · rw [tickTimer_expire X hact hz]
    · exfalso
      rw [tickTimer_cont X hact hz] at h0X
      exact hz h0X
  · exfalso
    rw [tickTimer_not_active X hact] at h0X
    rw [hsw.2.2.2.1] at h0X
    have h0s : s.timer_remaining = 0 := h0X
    omega

/-- C4 amended: in every reachable state 0 ≤ remaining ≤
configured_duration holds (the lower bound by the non-negativity of
Duration, here Nat); and whenever a tick takes remaining from a positive
value to zero, that same tick forces running to false (one-shot expiry).
The original universal form fails: remaining = 0 with running = true is
reachable by starting the timer when remaining is already zero. -/
theorem claim_C4_timer_invariant_amended (s : AppModel) (h : Reachable s) :
    s.timer_remaining ≤ s.timer_duration ∧
    ∀ (s2 : AppModel) (now : Nat), 0 < s2.timer_remaining →
      (update s2 (Message.UpdateTime now)).1.timer_remaining = 0 →
      (update s2 (Message.UpdateTime now)).1.timer_running = false := by
  constructor
  · obtain ⟨t0, msgs, rfl⟩ := h
    exact run_timer_le msgs (initModel t0) (Nat.le_refl 300000)
  · intro s2 now hpos h0
    exact tick_expiry_stops s2 now hpos h0

/-- Witness for C4 amended at the initial state and at a concrete
expiring tick. -/
theorem claim_C4_timer_invariant_amended_witness :
    (initModel 0).timer_remaining ≤ (initModel 0).timer_duration ∧
    (update { initModel 0 with timer_running := true, timer_remaining := 100 }
        (Message.UpdateTime 0)).1.timer_running = false :=
  ⟨(claim_C4_timer_invariant_amended (initModel 0) ⟨0, [], rfl⟩).1,
    (claim_C4_timer_invariant_amended (initModel 0) ⟨0, [], rfl⟩).2
      { initModel 0 with timer_running := true, timer_remaining := 100 } 0
      (by decide) (by decide)⟩

end CosmicWatch

namespace CosmicWatch

/-- toggleFirst never changes the id sequence. -/
theorem toggleFirst_map_id (id : Nat) : ∀ l : List AlarmItem,
    (toggleFirst id l).map AlarmItem.id = l.map AlarmItem.id := by
  intro l
  induction l with
  | nil => rfl
  | cons a rest ih =>
    rw [toggleFirst]
    by_cases h : a.id = id
    · rw [if_pos h]; rfl
    · rw [if_neg h, List.map_cons, List.map_cons, ih]

/-- updateFirst never changes the id sequence. -/
theorem updateFirst_map_id (id : Nat) (t : NaiveTime) (lbl : String) :
    ∀ l : List AlarmItem,
      (updateFirst id t lbl l).map AlarmItem.id = l.map AlarmItem.id := by
  intro l
  induction l with
  | nil => rfl
  | cons a rest ih =>
    rw [updateFirst]
    by_cases h : a.id = id
    · rw [if_pos h]; rfl
    · rw [if_neg h, List.map_cons, List.map_cons, ih]

/-- deleteAlarm returns a sublist of the original alarm list. -/
theorem deleteAlarm_sublist (id : Nat) : ∀ l : List AlarmItem,
    (deleteAlarm id l).Sublist l := by
  intro l
  induction l with
  | nil => exact List.Sublist.refl []
  | cons a rest ih =>
    rw [deleteAlarm]
    by_cases h : a.id = id
    · rw [if_pos h]; exact ih.cons a
    · rw [if_neg h]; exact ih.cons₂ a

/-- One step preserves distinctness of alarm ids and the bound by
next_alarm_id. -/
theorem ids_step (s : AppModel) (m : Message)
    (h1 : (s.alarms.map AlarmItem.id).Nodup)
    (h2 : ∀ i ∈ s.alarms.map AlarmItem.id, i < s.next_alarm_id)
    (hn : s.next_alarm_id + 1 < u32Mod) :
    ((update s m).1.alarms.map AlarmItem.id).Nodup ∧
    ∀ i ∈ (update s m).1.alarms.map AlarmItem.id, i < (update s m).1.next_alarm_id
    := by
  cases m with
  | UpdateTime now =>
    have hf := tick_frame s now
    constructor
    · show ((tick s now).1.alarms.map AlarmItem.id).Nodup
      rw [hf.2.1]; exact h1
    · show ∀ i ∈ (tick s now).1.alarms.map AlarmItem.id,
        i < (tick s now).1.next_alarm_id
      rw [hf.2.1, hf.2.2.1]; exact h2
  | StartStopwatch => exact ⟨h1, h2⟩
  | StopStopwatch => exact ⟨h1, h2⟩
  | ResetStopwatch => exact ⟨h1, h2⟩
  | StartTimer => exact ⟨h1, h2⟩
  | StopTimer => exact ⟨h1, h2⟩
  | ResetTimer => exact ⟨h1, h2⟩
  | SetTimerMinutes minutes => exact ⟨h1, h2⟩
  | SetTimerSeconds seconds => exact ⟨h1, h2⟩
  | AddAlarm => exact ⟨h1, h2⟩
  | EditAlarm id =>
    cases hfa : findAlarm id s.alarms <;> simp only [update, hfa] <;> exact ⟨h1, h2⟩
  | DeleteAlarm id =>
    have hsub : ((deleteAlarm id s.alarms).map AlarmItem.id).Sublist
        (s.alarms.map AlarmItem.id) := (deleteAlarm_sublist id s.alarms).map _
    exact ⟨h1.sublist hsub, fun i hi => h2 i (hsub.subset hi)⟩
  | ToggleAlarm id =>
    constructor
    · show ((toggleFirst id s.alarms).map AlarmItem.id).Nodup
      rw [toggleFirst_map_id]; exact h1
    · show ∀ i ∈ (toggleFirst id s.alarms).map AlarmItem.id, i < s.next_alarm_id
      rw [toggleFirst_map_id]; exact h2
  | SaveAlarm =>
    cases hE : s.editing_alarm with
    | none => simp only [update, hE]; exact ⟨h1, h2⟩
    | some e =>
      cases hid : e.id with
      | some tid =>
        simp only [update, hE, hid]
        constructor
        · rw [updateFirst_map_id]; exact h1
        · rw [updateFirst_map_id]; exact h2
      | none =>
        simp only [update, hE, hid]
        constructor
        · simp only [List.map_append, List.map_cons, List.map_nil]
          apply List.Nodup.append h1 (List.nodup_singleton s.next_alarm_id)
          intro i hi hmem
          rw [List.mem_singleton] at hmem
          have := h2 i hi
          omega
        · intro i hi
          simp only [List.map_append, List.map_cons, List.map_nil] at hi
          show i < (s.next_alarm_id + 1) % u32Mod
          rw [Nat.mod_eq_of_lt hn]
          rcases List.mem_append.mp hi with hmem | hmem
          · exact Nat.lt_trans (h2 i hmem) (Nat.lt_succ_self _)
          · rw [List.mem_singleton] at hmem
            rw [hmem]
            exact Nat.lt_succ_self _
  | CancelAlarmEdit => exact ⟨h1, h2⟩
  | AlarmEditHour hour =>
    cases hE : s.editing_alarm <;> simp only [update, hE] <;> exact ⟨h1, h2⟩
  | AlarmEditMinute minute =>
    cases hE : s.editing_alarm <;> simp only [update, hE] <;> exact ⟨h1, h2⟩
  | AlarmEditLabel label =>
    cases hE : s.editing_alarm <;> simp only [update, hE] <;> exact ⟨h1, h2⟩

/-- One step never increases next_alarm_id by more than one (an actual
increase only happens on a new-alarm save, and the wrap can only make
the value smaller). -/
theorem next_id_le_succ (s : AppModel) (m : Message) :
    (update s m).1.next_alarm_id ≤ s.next_alarm_id + 1 := by
  cases m with
  | UpdateTime now =>
    rw [show (update s (Message.UpdateTime now)).1.next_alarm_id =
      (tick s now).1.next_alarm_id from rfl, (tick_frame s now).2.2.1]
    exact Nat.le_succ _
  | StartStopwatch => exact Nat.le_succ _
  | StopStopwatch => exact Nat.le_succ _
  | ResetStopwatch => exact Nat.le_succ _
  | StartTimer => exact Nat.le_succ _
  | StopTimer => exact Nat.le_succ _
  | ResetTimer => exact Nat.le_succ _
  | SetTimerMinutes minutes => exact Nat.le_succ _
  | SetTimerSeconds seconds => exact Nat.le_succ _
  | AddAlarm => exact Nat.le_succ _
  | EditAlarm id =>
    cases hfa : findAlarm id s.alarms <;> simp only [update, hfa] <;>
      exact Nat.le_succ _
  | DeleteAlarm id => exact Nat.le_succ _
  | ToggleAlarm id => exact Nat.le_succ _
  | SaveAlarm =>
    cases hE : s.editing_alarm with
    | none => simp only [update, hE]; exact Nat.le_succ _
    | some e =>
      cases hid : e.id with
      | some tid => simp only [update, hE, hid]; exact Nat.le_succ _
      | none =>
        simp only [update, hE, hid]
        exact Nat.mod_le (s.next_alarm_id + 1) u32Mod
  | CancelAlarmEdit => exact Nat.le_succ _
  | AlarmEditHour hour =>
    cases hE : s.editing_alarm <;> simp only [update, hE] <;> exact Nat.le_succ _
  | AlarmEditMinute minute =>
    cases hE : s.editing_alarm <;> simp only [update, hE] <;> exact Nat.le_succ _
  | AlarmEditLabel label =>
    cases hE : s.editing_alarm <;> simp only [update, hE] <;> exact Nat.le_succ _

/-- The id invariant carries over every run short enough that the u32
counter cannot wrap, and the final counter is bounded by the start
counter plus the number of messages processed. -/
theorem run_ids (msgs : List Message) : ∀ s : AppModel,
    (s.alarms.map AlarmItem.id).Nodup →
    (∀ i ∈ s.alarms.map AlarmItem.id, i < s.next_alarm_id) →
    s.next_alarm_id + msgs.length < u32Mod →
    ((run s msgs).alarms.map AlarmItem.id).Nodup ∧
    (∀ i ∈ (run s msgs).alarms.map AlarmItem.id, i < (run s msgs).next_alarm_id) ∧
    (run s msgs).next_alarm_id ≤ s.next_alarm_id + msgs.length := by
  induction msgs with
  | nil => intro s h1 h2 hn; exact ⟨h1, h2, Nat.le_refl _⟩
  | cons m ms ih =>
    intro s h1 h2 hn
    simp only [List.length_cons] at hn
    have hs := ids_step s m h1 h2 (by omega)
    have hle := next_id_le_succ s m
    have hrest := ih (update s m).1 hs.1 hs.2 (by omega)
    refine ⟨hrest.1, hrest.2.1, ?_⟩
    have hr := hrest.2.2
    show (run (update s m).1 ms).next_alarm_id ≤ s.next_alarm_id + (m :: ms).length
    simp only [List.length_cons]
    omega

/-- As long as the u32 counter is not about to wrap, no step decreases
next_alarm_id. -/
theorem next_id_mono (s : AppModel) (m : Message)
    (hn : s.next_alarm_id + 1 < u32Mod) :
    s.next_alarm_id ≤ (update s m).1.next_alarm_id := by
  cases m with
  | UpdateTime now =>
    show s.next_alarm_id ≤ (tick s now).1.next_alarm_id
    rw [(tick_frame s now).2.2.1]
  | StartStopwatch => exact Nat.le_refl _
  | StopStopwatch => exact Nat.le_refl _
  | ResetStopwatch => exact Nat.le_refl _
  | StartTimer => exact Nat.le_refl _
  | StopTimer => exact Nat.le_refl _
  | ResetTimer => exact Nat.le_refl _
  | SetTimerMinutes minutes => exact Nat.le_refl _
  | SetTimerSeconds seconds => exact Nat.le_refl _
  | AddAlarm => exact Nat.le_refl _
  | EditAlarm id =>
    cases hfa : findAlarm id s.alarms <;> simp only [update, hfa] <;>
      exact Nat.le_refl _
  | DeleteAlarm id => exact Nat.le_refl _
  | ToggleAlarm id => exact Nat.le_refl _
  | SaveAlarm =>
    cases hE : s.editing_alarm with
    | none => simp only [update, hE]; exact Nat.le_refl _
    | some e =>
      cases hid : e.id with
      | some tid => simp only [update, hE, hid]; exact Nat.le_refl _
      | none =>
        simp only [update, hE, hid]
        show s.next_alarm_id ≤ (s.next_alarm_id + 1) % u32Mod
        rw [Nat.mod_eq_of_lt hn]
        exact Nat.le_succ _
  | CancelAlarmEdit => exact Nat.le_refl _
  | AlarmEditHour hour =>
    cases hE : s.editing_alarm <;> simp only [update, hE] <;> exact Nat.le_refl _
  | AlarmEditMinute minute =>
    cases hE : s.editing_alarm <;> simp only [update, hE] <;> exact Nat.le_refl _
  | AlarmEditLabel label =>
    cases hE : s.editing_alarm <;> simp only [update, hE] <;> exact Nat.le_refl _

end CosmicWatch

namespace CosmicWatch

/-- C7 amended: along every run short enough that the u32 id counter
cannot wrap (fewer than 2^32 - 2 messages, hence fewer than that many
alarm creations), the alarm ids are pairwise distinct and all strictly
below next_alarm_id; no step decreases next_alarm_id (so a deleted id,
being below every future next_alarm_id, is never handed out again); and
saving a new alarm appends exactly the id next_alarm_id and increments
the counter by one.  Without the length bound the claim fails: the
unchecked u32 increment wraps after 2^32 - 1 creations and ids repeat. -/
theorem claim_C7_alarm_ids_unique (t0 : Nat) (msgs : List Message)
    (hlen : msgs.length + 2 < u32Mod) :
    ((run (initModel t0) msgs).alarms.map AlarmItem.id).Nodup ∧
    (∀ i ∈ (run (initModel t0) msgs).alarms.map AlarmItem.id,
      i < (run (initModel t0) msgs).next_alarm_id) ∧
    (∀ m : Message, (run (initModel t0) msgs).next_alarm_id ≤
      (update (run (initModel t0) msgs) m).1.next_alarm_id) ∧
    ∀ e, (run (initModel t0) msgs).editing_alarm = some e → e.id = none →
      (update (run (initModel t0) msgs) Message.SaveAlarm).1.alarms.map AlarmItem.id
        = (run (initModel t0) msgs).alarms.map AlarmItem.id ++
          [(run (initModel t0) msgs).next_alarm_id] ∧
      (update (run (initModel t0) msgs) Message.SaveAlarm).1.next_alarm_id =
        (run (initModel t0) msgs).next_alarm_id + 1 := by
  have hinit : (initModel t0).next_alarm_id = 1 := rfl
  have hids := run_ids msgs (initModel t0) List.nodup_nil
    (fun i hi => absurd hi (List.not_mem_nil i)) (by omega)
  have hnext : (run (initModel t0) msgs).next_alarm_id + 1 < u32Mod := by
    have hb := hids.2.2
    omega
  refine ⟨hids.1, hids.2.1, fun m => next_id_mono _ m hnext, ?_⟩
  intro e hE hid
  constructor
  · simp only [update, hE, hid, List.map_append, List.map_cons, List.map_nil]
  · simp only [update, hE, hid]
    exact Nat.mod_eq_of_lt hnext

/-- Witness for C7: after creating one alarm from a fresh start, ids are
distinct and a new save increments the counter to 2. -/
theorem claim_C7_alarm_ids_unique_witness :
    ((run (initModel 0) [Message.AddAlarm]).alarms.map AlarmItem.id).Nodup ∧
    (update (run (initModel 0) [Message.AddAlarm]) Message.SaveAlarm).1.next_alarm_id
      = 2 := by
  have h := claim_C7_alarm_ids_unique 0 [Message.AddAlarm] (by decide)
  exact ⟨h.1, (h.2.2.2 ⟨none, 0, 0, ""⟩ rfl rfl).2⟩

end CosmicWatch

namespace CosmicWatch

/-- The hour accessor of any timestamp is at most 23. -/
theorem tsHour_le (t : Nat) : tsHour t ≤ 23 := by
  rw [tsHour]; omega

/-- The minute accessor of any timestamp is at most 59. -/
theorem tsMinute_le (t : Nat) : tsMinute t ≤ 59 := by
  rw [tsMinute]; omega

/-- from_hms_opt succeeds on every in-range hour/minute pair. -/
theorem fromHmsOpt_valid_of {hh mm : Nat} (h : hh ≤ 23) (hm : mm ≤ 59) :
    fromHmsOpt hh mm 0 = some ⟨hh, mm, 0⟩ := by
  rw [fromHmsOpt, if_pos ⟨h, hm, Nat.zero_le 59⟩]

/-- The time stored by SaveAlarm is valid whichever branch is taken. -/
theorem saveTime_valid (hh mm : Nat) :
    ((fromHmsOpt hh mm 0).getD midnight).hour ≤ 23 ∧
    ((fromHmsOpt hh mm 0).getD midnight).minute ≤ 59 := by
  rw [fromHmsOpt]
  split
  · rename_i hc
    exact ⟨hc.1, hc.2.1⟩
  · exact ⟨Nat.zero_le 23, Nat.zero_le 59⟩

/-- A found alarm is a member of the list searched. -/
theorem findAlarm_mem (id : Nat) : ∀ (l : List AlarmItem) (a : AlarmItem),
    findAlarm id l = some a → a ∈ l := by
  intro l
  induction l with
  | nil => intro a h; exact Option.noConfusion h
  | cons b rest ih =>
    intro a h
    rw [findAlarm] at h
    by_cases hb : b.id = id
    · rw [if_pos hb] at h
      rw [← Option.some.inj h]
      exact List.mem_cons_self b rest
    · rw [if_neg hb] at h
      exact List.mem_cons_of_mem b (ih a h)

/-- Every member of updateFirst either carries the written time or was
already in the list. -/
theorem mem_updateFirst_time (id : Nat) (t : NaiveTime) (lbl : String) :
    ∀ (l : List AlarmItem) (a : AlarmItem),
      a ∈ updateFirst id t lbl l → a.time = t ∨ a ∈ l := by
  intro l
  induction l with
  | nil => intro a h; exact absurd h (List.not_mem_nil a)
  | cons b rest ih =>
    intro a h
    rw [updateFirst] at h
    by_cases hb : b.id = id
    · rw [if_pos hb] at h
      rcases List.mem_cons.mp h with hk | hk
      · left; rw [hk]
      · right; exact List.mem_cons_of_mem b hk
    · rw [if_neg hb] at h
      rcases List.mem_cons.mp h with hk | hk
      · right; rw [hk]; exact List.mem_cons_self b rest
      · rcases ih a hk with hc | hc
        · left; exact hc
        · right; exact List.mem_cons_of_mem b hc

/-- Every member of toggleFirst has the time of some original member. -/
theorem mem_toggleFirst_time (id : Nat) :
    ∀ (l : List AlarmItem) (a : AlarmItem),
      a ∈ toggleFirst id l → ∃ b, b ∈ l ∧ a.time = b.time := by
  intro l
  induction l with
  | nil => intro a h; exact absurd h (List.not_mem_nil a)
  | cons c rest ih =>
    intro a h
    rw [toggleFirst] at h
    by_cases hc : c.id = id
    · rw [if_pos hc] at h
      rcases List.mem_cons.mp h with hk | hk
      · exact ⟨c, List.mem_cons_self c rest, by rw [hk]⟩
      · exact ⟨a, List.mem_cons_of_mem c hk, rfl⟩
    · rw [if_neg hc] at h
      rcases List.mem_cons.mp h with hk | hk
      · exact ⟨c, List.mem_cons_self c rest, by rw [hk]⟩
      · obtain ⟨b, hb, ht⟩ := ih a hk
        exact ⟨b, List.mem_cons_of_mem c hb, ht⟩

end CosmicWatch

namespace CosmicWatch

/-- One step preserves validity of the draft's hour/minute and of every
stored alarm time. -/
theorem time_step (s : AppModel) (m : Message)
    (h1 : ∀ e, s.editing_alarm = some e → e.hour ≤ 23 ∧ e.minute ≤ 59)
    (h2 : ∀ a ∈ s.alarms, a.time.hour ≤ 23 ∧ a.time.minute ≤ 59) :
    (∀ e, (update s m).1.editing_alarm = some e → e.hour ≤ 23 ∧ e.minute ≤ 59) ∧
    ∀ a ∈ (update s m).1.alarms, a.time.hour ≤ 23 ∧ a.time.minute ≤ 59 := by
  cases m with
  | UpdateTime now =>
    have hf := tick_frame s now
    constructor
    · intro e he
      have he2 : (tick s now).1.editing_alarm = some e := he
      rw [hf.2.2.2.1] at he2
      exact h1 e he2
    · intro a ha
      have ha2 : a ∈ (tick s now).1.alarms := ha
      rw [hf.2.1] at ha2
      exact h2 a ha2
  | StartStopwatch => exact ⟨h1, h2⟩
  | StopStopwatch => exact ⟨h1, h2⟩
  | ResetStopwatch => exact ⟨h1, h2⟩
  | StartTimer => exact ⟨h1, h2⟩
  | StopTimer => exact ⟨h1, h2⟩
  | ResetTimer => exact ⟨h1, h2⟩
  | SetTimerMinutes minutes => exact ⟨h1, h2⟩
  | SetTimerSeconds seconds => exact ⟨h1, h2⟩
  | AddAlarm =>
    refine ⟨?_, h2⟩
    intro e he
    have he2 : some (⟨none, tsHour s.current_time, tsMinute s.current_time, ""⟩ :
      AlarmEdit) = some e := he
    rw [← Option.some.inj he2]
    exact ⟨tsHour_le s.current_time, tsMinute_le s.current_time⟩
  | EditAlarm id =>
    cases hfa : findAlarm id s.alarms with
    | none => simp only [update, hfa]; exact ⟨h1, h2⟩
    | some alarm =>
      have hv := h2 alarm (findAlarm_mem id s.alarms alarm hfa)
      simp only [update, hfa]
      refine ⟨?_, h2⟩
      intro e he
      have he2 : some (⟨some id, alarm.time.hour, alarm.time.minute, alarm.label⟩ :
        AlarmEdit) = some e := he
      rw [← Option.some.inj he2]
      exact ⟨hv.1, hv.2⟩
  | DeleteAlarm id =>
    refine ⟨h1, ?_⟩
    intro a ha
    exact h2 a ((deleteAlarm_sublist id s.alarms).subset ha)
  | ToggleAlarm id =>
    refine ⟨h1, ?_⟩
    intro a ha
    obtain ⟨b, hb, ht⟩ := mem_toggleFirst_time id s.alarms a ha
    rw [ht]
    exact h2 b hb
  | SaveAlarm =>
    cases hE : s.editing_alarm with
    | none => simp only [update, hE]; exact ⟨fun e he => Option.noConfusion he, h2⟩
    | some e =>
      cases hid : e.id with
      | some tid =>
        simp only [update, hE, hid]
        refine ⟨fun e2 he2 => Option.noConfusion he2, ?_⟩
        intro a ha
        rcases mem_updateFirst_time tid _ e.label s.alarms a ha with ht | hmem
        · rw [ht]
          exact saveTime_valid e.hour e.minute
        · exact h2 a hmem
      | none =>
        simp only [update, hE, hid]
        refine ⟨fun e2 he2 => Option.noConfusion he2, ?_⟩
        intro a ha
        rcases List.mem_append.mp ha with hmem | hmem
        · exact h2 a hmem
        · rw [List.mem_singleton] at hmem
          rw [hmem]
          exact saveTime_valid e.hour e.minute
  | CancelAlarmEdit => exact ⟨fun e he => Option.noConfusion he, h2⟩
  | AlarmEditHour hour =>
    cases hE : s.editing_alarm with
    | none => simp only [update, hE]; exact ⟨fun e he => Option.noConfusion he, h2⟩
    | some e =>
      simp only [update, hE]
      refine ⟨?_, h2⟩
      intro e2 he2
      have hv := h1 e hE
      have he3 : some ({ e with hour := min hour 23 } : AlarmEdit) = some e2 := he2
      rw [← Option.some.inj he3]
      exact ⟨Nat.min_le_right hour 23, hv.2⟩
  | AlarmEditMinute minute =>
    cases hE : s.editing_alarm with
    | none => simp only [update, hE]; exact ⟨fun e he => Option.noConfusion he, h2⟩
    | some e =>
      simp only [update, hE]
      refine ⟨?_, h2⟩
      intro e2 he2
      have hv := h1 e hE
      have he3 : some ({ e with minute := min minute 59 } : AlarmEdit) = some e2 := he2
      rw [← Option.some.inj he3]
      exact ⟨hv.1, Nat.min_le_right minute 59⟩
  | AlarmEditLabel label =>
    cases hE : s.editing_alarm with
    | none => simp only [update, hE]; exact ⟨fun e he => Option.noConfusion he, h2⟩
    | some e =>
      simp only [update, hE]
      refine ⟨?_, h2⟩
      intro e2 he2
      have hv := h1 e hE
      have he3 : some ({ e with label := label } : AlarmEdit) = some e2 := he2
      rw [← Option.some.inj he3]
      exact ⟨hv.1, hv.2⟩

/-- The time-validity invariant carries over whole runs. -/
theorem run_time (msgs : List Message) : ∀ s : AppModel,
    (∀ e, s.editing_alarm = some e → e.hour ≤ 23 ∧ e.minute ≤ 59) →
    (∀ a ∈ s.alarms, a.time.hour ≤ 23 ∧ a.time.minute ≤ 59) →
    (∀ e, (run s msgs).editing_alarm = some e → e.hour ≤ 23 ∧ e.minute ≤ 59) ∧
    ∀ a ∈ (run s msgs).alarms, a.time.hour ≤ 23 ∧ a.time.minute ≤ 59 := by
  induction msgs with
  | nil => intro s h1 h2; exact ⟨h1, h2⟩
  | cons m ms ih =>
    intro s h1 h2
    have hs := time_step s m h1 h2
    exact ih (update s m).1 hs.1 hs.2

/-- C9: in every reachable state the draft, when alive, satisfies
hour ≤ 23 and minute ≤ 59 and every stored alarm time is in range, so
from_hms_opt succeeds on the draft and the midnight fallback of
SaveAlarm is never used: the stored time is exactly the draft's
hour and minute. -/
theorem claim_C9_draft_always_valid (s : AppModel) (h : Reachable s) :
    (∀ e, s.editing_alarm = some e →
      e.hour ≤ 23 ∧ e.minute ≤ 59 ∧
      fromHmsOpt e.hour e.minute 0 = some ⟨e.hour, e.minute, 0⟩ ∧
      (fromHmsOpt e.hour e.minute 0).getD midnight = ⟨e.hour, e.minute, 0⟩) ∧
    ∀ a ∈ s.alarms, a.time.hour ≤ 23 ∧ a.time.minute ≤ 59 := by
  obtain ⟨t0, msgs, rfl⟩ := h
  have ht := run_time msgs (initModel t0)
    (fun e he => Option.noConfusion he)
    (fun a ha => absurd ha (List.not_mem_nil a))
  refine ⟨?_, ht.2⟩
  intro e he
  have hv := ht.1 e he
  have hf := fromHmsOpt_valid_of hv.1 hv.2
  exact ⟨hv.1, hv.2, hf, by rw [hf]; rfl⟩

/-- Witness for C9 on the draft created by AddAlarm at midnight. -/
theorem claim_C9_draft_always_valid_witness :
    (0 : Nat) ≤ 23 ∧ fromHmsOpt 0 0 0 = some ⟨0, 0, 0⟩ := by
  have h := (claim_C9_draft_always_valid (run (initModel 0) [Message.AddAlarm])
    ⟨0, [Message.AddAlarm], rfl⟩).1 ⟨none, 0, 0, ""⟩ rfl
  exact ⟨h.1, h.2.2.1⟩

end CosmicWatch

namespace CosmicWatch

/-- Each AddAlarm-then-SaveAlarm pair appends one alarm whose id is the
current counter, and the counter advances modulo 2^32; so n pairs append
the ids (next + i) % 2^32 for i = 0 .. n-1 in order. -/
theorem run_savePairs : ∀ (n : Nat) (s : AppModel),
    s.editing_alarm = none → s.next_alarm_id < u32Mod →
    (run s (savePairs n)).alarms.map AlarmItem.id =
      s.alarms.map AlarmItem.id ++
        (List.range n).map (fun i => (s.next_alarm_id + i) % u32Mod) := by
  intro n
  induction n with
  | zero =>
    intro s hE hlt
    rw [savePairs, run, List.range_zero, List.map_nil, List.append_nil]
  | succ n ihn =>
    intro s hE hlt
    have hpos : 0 < u32Mod := by decide
    have hstep : run s (savePairs (n + 1)) = run { s with alarms := s.alarms ++ [newAlarmItem s], next_alarm_id := (s.next_alarm_id + 1) % u32Mod, editing_alarm := none } (savePairs n) := rfl
    have key := ihn { s with alarms := s.alarms ++ [newAlarmItem s], next_alarm_id := (s.next_alarm_id + 1) % u32Mod, editing_alarm := none } rfl (Nat.mod_lt _ hpos)
    rw [hstep, key]
    show (s.alarms ++ [newAlarmItem s]).map AlarmItem.id ++
        (List.range n).map (fun i => ((s.next_alarm_id + 1) % u32Mod + i) % u32Mod)
      = s.alarms.map AlarmItem.id ++
        (List.range (n + 1)).map (fun i => (s.next_alarm_id + i) % u32Mod)
    have hblock : [(newAlarmItem s).id] ++
        (List.range n).map (fun i => ((s.next_alarm_id + 1) % u32Mod + i) % u32Mod)
      = (List.range (n + 1)).map (fun i => (s.next_alarm_id + i) % u32Mod) := by
      rw [List.singleton_append, List.range_succ_eq_map, List.map_cons, List.map_map]
      congr 1
      · show s.next_alarm_id = (s.next_alarm_id + 0) % u32Mod
        rw [Nat.add_zero, Nat.mod_eq_of_lt hlt]
      · apply List.map_congr_left
        intro i _
        show ((s.next_alarm_id + 1) % u32Mod + i) % u32Mod =
          (s.next_alarm_id + (i + 1)) % u32Mod
        rw [Nat.mod_add_mod]
        congr 1
        omega
    rw [List.map_append, List.map_singleton, List.append_assoc, hblock]

/-- Counterexample to C7 as stated: the state reached by 2^32 + 1
repetitions of AddAlarm-then-SaveAlarm is reachable, yet its alarm ids
are not pairwise distinct: the unchecked u32 counter wraps, and the id 1
is assigned both to the first alarm and to the last. -/
theorem claim_C7_counterexample :
    Reachable (run (initModel 0) (savePairs (u32Mod + 1))) ∧
    ¬ ((run (initModel 0) (savePairs (u32Mod + 1))).alarms.map AlarmItem.id).Nodup
    := by
  refine ⟨⟨0, savePairs (u32Mod + 1), rfl⟩, ?_⟩
  intro hnd
  have hids := run_savePairs (u32Mod + 1) (initModel 0) rfl (by decide)
  rw [hids, show (initModel 0).alarms.map AlarmItem.id = [] from rfl,
    List.nil_append] at hnd
  have hinj := List.inj_on_of_nodup_map hnd
  have h0 : (0 : Nat) ∈ List.range (u32Mod + 1) := List.mem_range.mpr (by omega)
  have hM : u32Mod ∈ List.range (u32Mod + 1) := List.mem_range.mpr (by omega)
  have heq : ((initModel 0).next_alarm_id + 0) % u32Mod =
      ((initModel 0).next_alarm_id + u32Mod) % u32Mod := by
    show (1 + 0) % 4294967296 = (1 + 4294967296) % 4294967296
    decide
  exact absurd (hinj h0 hM heq) (by decide)

end CosmicWatch
